import Mathlib

/-!
Verification of the proof-of-work header chain from
`src/c2_blockchain/p3_consensus.rs` of blockchain-from-scratch.

The Rust code works over `u64` values; we embed them as `Nat` with explicit
`% 2 ^ 64` wherever the Rust arithmetic can wrap.  The repository's `hash`
utility lives outside the core file and is only constrained by the spec's
contract (a pure deterministic function `Header -> u64`), so every definition
and theorem below is parameterised by an arbitrary hash function
`hashF : Header → Nat`; a concrete spec-modelled instance `hashM` is used to
evaluate the development on concrete inputs.  The mining loop draws random
`u32` nonces; we pass the randomness explicitly as a list of pending draws,
and the loop returns `none` when the draws are exhausted (the Rust loop would
simply keep spinning, so every `some` result of the embedded loop is a result
the Rust loop can produce, and the postconditions of a `some` result are
exactly the postconditions of the Rust return).
-/

namespace Blockchain

/-- The block header of `p3_consensus.rs`: parent hash, height, a single
scalar extrinsic, cumulative state, and the proof-of-work nonce. -/
structure Header where
  parent : Nat
  height : Nat
  extrinsic : Nat
  state : Nat
  consensus_digest : Nat
deriving DecidableEq

/-- `THRESHOLD = u64::max_value() / 100`. -/
def THRESHOLD : Nat := (2 ^ 64 - 1) / 100

/-- The contentious hard fork happens at this block height. -/
def FORK_HEIGHT : Nat := 2

/-- Modelled from the spec: the repository's `hash` utility (used as
`crate::hash` by the consensus file) is not part of the core source; the spec
only requires a pure, deterministic function `Header -> u64` that is sensitive
to every field.  This instance is a linear combination of the five fields with
odd coefficients, reduced mod `2 ^ 64`, which is deterministic and changes
whenever any single in-range field changes. -/
def hashM (h : Header) : Nat :=
  (3 * h.parent + 5 * h.height + 7 * h.extrinsic + 9 * h.state
    + h.consensus_digest) % 2 ^ 64

/-- The mining loop inside `child`: draw a nonce (a random `u32` widened to
`u64`, here the next element of the explicit draw list reduced mod `2 ^ 32`),
install it as the candidate's digest, and accept as soon as the candidate's
hash is below `THRESHOLD`.  Returns the accepted header together with the
unconsumed draws. -/
def mine (hashF : Header → Nat) (base : Header) :
    List Nat → Option (Header × List Nat)
  | [] => none
  | nonce :: rest =>
    if hashF { base with consensus_digest := nonce % 2 ^ 32 } < THRESHOLD then
      some ({ base with consensus_digest := nonce % 2 ^ 32 }, rest)
    else
      mine hashF base rest

/-- `Header::genesis`: the fixed all-zero header. -/
def Header.genesis : Header :=
  { parent := 0, height := 0, extrinsic := 0, state := 0,
    consensus_digest := 0 }

/-- `Header::child`: fill in height, parent hash and accumulated state
(`u64` additions wrap mod `2 ^ 64`), then search for a digest with `mine`. -/
def Header.child (hashF : Header → Nat) (h : Header) (extrinsic : Nat)
    (nonces : List Nat) : Option (Header × List Nat) :=
  mine hashF
    { height := (h.height + 1) % 2 ^ 64
      parent := hashF h
      state := (h.state + extrinsic) % 2 ^ 64
      extrinsic := extrinsic
      consensus_digest := 0 } nonces

/-- `Header::is_header_verified`: the height step is checked through
`saturating_sub` (which is exactly `Nat` subtraction), then the parent hash,
the wrapped state accumulation, and the proof-of-work bound. -/
def is_header_verified (hashF : Header → Nat) (prev_header header : Header) :
    Bool :=
  if header.height - prev_header.height ≠ 1 then false
  else
    (header.parent == hashF prev_header) &&
    (header.state == (prev_header.state + header.extrinsic) % 2 ^ 64) &&
    decide (hashF header < THRESHOLD)

/-- `Header::verify_sub_chain`: walk the chain with a rolling previous
header, failing as soon as one pair fails `is_header_verified`. -/
def verify_sub_chain (hashF : Header → Nat) : Header → List Header → Bool
  | _, [] => true
  | anchor, header :: rest =>
    if is_header_verified hashF anchor header = true then
      verify_sub_chain hashF header rest
    else false

/-- `Header::verify_sub_chain_even`: the same walk, additionally rejecting
any header past `FORK_HEIGHT` whose state is odd. -/
def verify_sub_chain_even (hashF : Header → Nat) :
    Header → List Header → Bool
  | _, [] => true
  | anchor, header :: rest =>
    if FORK_HEIGHT < header.height ∧ header.state % 2 ≠ 0 then false
    else if is_header_verified hashF anchor header = true then
      verify_sub_chain_even hashF header rest
    else false

/-- `Header::verify_sub_chain_odd`: the same walk, additionally rejecting
any header past `FORK_HEIGHT` whose state is even. -/
def verify_sub_chain_odd (hashF : Header → Nat) :
    Header → List Header → Bool
  | _, [] => true
  | anchor, header :: rest =>
    if FORK_HEIGHT < header.height ∧ header.state % 2 ≠ 1 then false
    else if is_header_verified hashF anchor header = true then
      verify_sub_chain_odd hashF header rest
    else false

/-- `build_contentious_forked_chain`: mine `b1 = genesis.child(5)`,
`b2 = b1.child(6)`, fork at `b2` into an even branch (`child(3)` then
`child(2)`) and an odd branch (`child(4)` then `child(2)`), and return
`([b1, b2], even branch, odd branch)`.  The randomness is threaded through
the six mining calls; any exhausted draw list aborts with `none`. -/
def build_contentious_forked_chain (hashF : Header → Nat)
    (nonces : List Nat) :
    Option (List Header × List Header × List Header) :=
  match Header.child hashF Header.genesis 5 nonces with
  | none => none
  | some (b1, ns1) =>
    match Header.child hashF b1 6 ns1 with
    | none => none
    | some (b2, ns2) =>
      match Header.child hashF b2 3 ns2 with
      | none => none
      | some (ea, ns3) =>
        match Header.child hashF ea 2 ns3 with
        | none => none
        | some (eb, ns4) =>
          match Header.child hashF b2 4 ns4 with
          | none => none
          | some (oa, ns5) =>
            match Header.child hashF oa 2 ns5 with
            | none => none
            | some (ob, _) =>
              some ([b1, b2], [ea, eb], [oa, ob])

/-- The four pairwise invariants of the spec (§3), stated for one adjacent
pair `(prev, h)`: height increments by one, parent is the hash of `prev`,
state is the (wrapping `u64`) accumulation of the extrinsic, and the header's
hash meets the proof-of-work bound. -/
def HeaderOk (hashF : Header → Nat) (prev h : Header) : Prop :=
  h.height = prev.height + 1 ∧
  h.parent = hashF prev ∧
  h.state = (prev.state + h.extrinsic) % 2 ^ 64 ∧
  hashF h < THRESHOLD

/-- The spec's description of a valid sub-chain: the four invariants hold for
every consecutive pair `(anchor, chain[0])`, `(chain[0], chain[1])`, …,
`(chain[n-2], chain[n-1])`.  Pair `i` is `((anchor :: chain)[i], chain[i])`;
the default value of `getD` is never reached since `i < chain.length`. -/
def PairsOk (hashF : Header → Nat) (anchor : Header)
    (chain : List Header) : Prop :=
  ∀ i, i < chain.length →
    HeaderOk hashF ((anchor :: chain).getD i Header.genesis)
      (chain.getD i Header.genesis)

/-- A chain grown solely by (successful) `child` calls: each element is the
header returned by `child` applied to the previous element, for some extrinsic
and some randomness. -/
inductive BuiltFrom (hashF : Header → Nat) : Header → List Header → Prop where
  | nil (h : Header) : BuiltFrom hashF h []
  | cons {h h' : Header} {e : Nat} {ns rest : List Nat} {t : List Header} :
      Header.child hashF h e ns = some (h', rest) →
      BuiltFrom hashF h' t →
      BuiltFrom hashF h (h' :: t)

/-- `is_header_verified` decides exactly the four pairwise invariants. -/
lemma is_header_verified_iff (hashF : Header → Nat) (p h : Header) :
    is_header_verified hashF p h = true ↔ HeaderOk hashF p h := by
  unfold is_header_verified HeaderOk
  split
  · rename_i hne
    constructor
    · intro hfalse; cases hfalse
    · rintro ⟨h1, -⟩; omega
  · rename_i hne
    simp only [Bool.and_eq_true, beq_iff_eq, decide_eq_true_eq]
    constructor
    · rintro ⟨⟨ha, hb⟩, hc⟩
      exact ⟨by omega, ha, hb, hc⟩
    · rintro ⟨h1, ha, hb, hc⟩
      exact ⟨⟨ha, hb⟩, hc⟩

lemma pairsOk_nil (hashF : Header → Nat) (a : Header) :
    PairsOk hashF a [] := by
  intro i hi
  exact absurd hi (by simp)

lemma pairsOk_cons (hashF : Header → Nat) (a h : Header) (t : List Header) :
    PairsOk hashF a (h :: t) ↔ HeaderOk hashF a h ∧ PairsOk hashF h t := by
  constructor
  · intro H
    refine ⟨?_, ?_⟩
    · have h0 := H 0 (by simp)
      simpa [List.getD_cons_zero] using h0
    · intro i hi
      have hs := H (i + 1) (by simp; omega)
      simpa [List.getD_cons_succ] using hs
  · rintro ⟨h1, H⟩ i hi
    cases i with
    | zero => simpa [List.getD_cons_zero] using h1
    | succ j =>
      have hj : j < t.length := by simp at hi; omega
      have := H j hj
      simpa [List.getD_cons_succ] using this

/-- The chain walk of `verify_sub_chain` succeeds exactly when the four
invariants hold for every consecutive pair. -/
lemma verify_iff_pairsOk (hashF : Header → Nat) (anchor : Header)
    (chain : List Header) :
    verify_sub_chain hashF anchor chain = true ↔
      PairsOk hashF anchor chain := by
  induction chain generalizing anchor with
  | nil =>
    constructor
    · intro _; exact pairsOk_nil hashF anchor
    · intro _; rfl
  | cons h t ih =>
    rw [pairsOk_cons]
    show (if is_header_verified hashF anchor h = true then
        verify_sub_chain hashF h t else false) = true ↔ _
    by_cases hv : is_header_verified hashF anchor h = true
    · rw [if_pos hv, ih h]
      constructor
      · intro H
        exact ⟨(is_header_verified_iff hashF anchor h).1 hv, H⟩
      · exact And.right
    · rw [if_neg hv]
      constructor
      · intro hfalse; cases hfalse
      · rintro ⟨h1, -⟩
        exact absurd ((is_header_verified_iff hashF anchor h).2 h1) hv

/-- One failing pair anywhere in the walk forces the whole verification to
return `false`. -/
lemma verify_false_of_pair_fail (hashF : Header → Nat) (anchor : Header)
    (chain : List Header) (i : Nat) (hi : i < chain.length)
    (hbad : ¬ HeaderOk hashF ((anchor :: chain).getD i Header.genesis)
      (chain.getD i Header.genesis)) :
    verify_sub_chain hashF anchor chain = false := by
  cases hb : verify_sub_chain hashF anchor chain with
  | false => rfl
  | true =>
    exact absurd ((verify_iff_pairsOk hashF anchor chain).1 hb i hi) hbad

lemma getD_set_self {α : Type} (l : List α) (i : Nat) (a d : α)
    (hi : i < l.length) : (l.set i a).getD i d = a := by
  induction l generalizing i with
  | nil => simp at hi
  | cons x t ih =>
    cases i with
    | zero => rfl
    | succ j =>
      have hj : j < t.length := by simp at hi; omega
      simpa [List.set, List.getD_cons_succ] using ih j hj

lemma getD_set_of_ne {α : Type} (l : List α) (i j : Nat) (a d : α)
    (hne : i ≠ j) : (l.set i a).getD j d = l.getD j d := by
  induction l generalizing i j with
  | nil => rfl
  | cons x t ih =>
    cases i with
    | zero =>
      cases j with
      | zero => exact absurd rfl hne
      | succ k => rfl
    | succ i' =>
      cases j with
      | zero => rfl
      | succ k =>
        simpa [List.set, List.getD_cons_succ] using
          ih i' k (fun h => hne (by omega))

/-- Every header accepted by the mining loop keeps the candidate's
deterministic fields, carries a 32-bit digest, and meets the threshold. -/
lemma mine_spec (hashF : Header → Nat) (base : Header) :
    ∀ (ns : List Nat) (h' : Header) (rest : List Nat),
      mine hashF base ns = some (h', rest) →
      h'.parent = base.parent ∧ h'.height = base.height ∧
      h'.extrinsic = base.extrinsic ∧ h'.state = base.state ∧
      h'.consensus_digest < 2 ^ 32 ∧ hashF h' < THRESHOLD := by
  intro ns
  induction ns with
  | nil => intro h' rest H; cases H
  | cons n t ih =>
    intro h' rest H
    unfold mine at H
    by_cases hc :
        hashF { base with consensus_digest := n % 2 ^ 32 } < THRESHOLD
    · rw [if_pos hc] at H
      simp only [Option.some.injEq, Prod.mk.injEq] at H
      obtain ⟨h1, -⟩ := H
      subst h1
      refine ⟨rfl, rfl, rfl, rfl, ?_, hc⟩
      exact Nat.mod_lt n (by norm_num)
    · rw [if_neg hc] at H
      exact ih h' rest H

/-- Postconditions of a successful `child` call: the deterministic fields are
set from the parent (with wrapping `u64` arithmetic), the digest is a 32-bit
value, and the proof-of-work bound holds. -/
lemma child_spec (hashF : Header → Nat) (h : Header) (e : Nat)
    (ns : List Nat) (h' : Header) (rest : List Nat)
    (H : Header.child hashF h e ns = some (h', rest)) :
    h'.height = (h.height + 1) % 2 ^ 64 ∧ h'.parent = hashF h ∧
    h'.extrinsic = e ∧ h'.state = (h.state + e) % 2 ^ 64 ∧
    h'.consensus_digest < 2 ^ 32 ∧ hashF h' < THRESHOLD := by
  have := mine_spec hashF
    { height := (h.height + 1) % 2 ^ 64
      parent := hashF h
      state := (h.state + e) % 2 ^ 64
      extrinsic := e
      consensus_digest := 0 } ns h' rest H
  exact ⟨this.2.1, this.1, this.2.2.1, this.2.2.2.1, this.2.2.2.2⟩

/-- An accepted even-rule chain has even state on every header past the
fork height. -/
lemma even_chain_parity (hashF : Header → Nat) :
    ∀ (anchor : Header) (chain : List Header),
      verify_sub_chain_even hashF anchor chain = true →
      ∀ h ∈ chain, FORK_HEIGHT < h.height → h.state % 2 = 0 := by
  intro anchor chain
  induction chain generalizing anchor with
  | nil => intro _ h hm; cases hm
  | cons hd t ih =>
    intro H h hm hh
    unfold verify_sub_chain_even at H
    by_cases hp : FORK_HEIGHT < hd.height ∧ hd.state % 2 ≠ 0
    · rw [if_pos hp] at H; cases H
    · rw [if_neg hp] at H
      by_cases hv : is_header_verified hashF anchor hd = true
      · rw [if_pos hv] at H
        rcases List.mem_cons.1 hm with hEq | hmem
        · subst hEq
          push_neg at hp
          exact hp hh
        · exact ih hd H h hmem hh
      · rw [if_neg hv] at H; cases H

/-- An accepted odd-rule chain has odd state on every header past the
fork height. -/
lemma odd_chain_parity (hashF : Header → Nat) :
    ∀ (anchor : Header) (chain : List Header),
      verify_sub_chain_odd hashF anchor chain = true →
      ∀ h ∈ chain, FORK_HEIGHT < h.height → h.state % 2 = 1 := by
  intro anchor chain
  induction chain generalizing anchor with
  | nil => intro _ h hm; cases hm
  | cons hd t ih =>
    intro H h hm hh
    unfold verify_sub_chain_odd at H
    by_cases hp : FORK_HEIGHT < hd.height ∧ hd.state % 2 ≠ 1
    · rw [if_pos hp] at H; cases H
    · rw [if_neg hp] at H
      by_cases hv : is_header_verified hashF anchor hd = true
      · rw [if_pos hv] at H
        rcases List.mem_cons.1 hm with hEq | hmem
        · subst hEq
          push_neg at hp
          exact hp hh
        · exact ih hd H h hmem hh
      · rw [if_neg hv] at H; cases H

/-- The even-rule walk is the structural walk with an extra filter, so its
acceptance implies structural acceptance. -/
lemma even_implies_structural (hashF : Header → Nat) :
    ∀ (anchor : Header) (chain : List Header),
      verify_sub_chain_even hashF anchor chain = true →
      verify_sub_chain hashF anchor chain = true := by
  intro anchor chain
  induction chain generalizing anchor with
  | nil => intro _; rfl
  | cons hd t ih =>
    intro H
    unfold verify_sub_chain_even at H
    by_cases hp : FORK_HEIGHT < hd.height ∧ hd.state % 2 ≠ 0
    · rw [if_pos hp] at H; cases H
    · rw [if_neg hp] at H
      by_cases hv : is_header_verified hashF anchor hd = true
      · rw [if_pos hv] at H
        show (if is_header_verified hashF anchor hd = true then
            verify_sub_chain hashF hd t else false) = true
        rw [if_pos hv]
        exact ih hd H
      · rw [if_neg hv] at H; cases H

/-- The odd-rule walk is the structural walk with an extra filter, so its
acceptance implies structural acceptance. -/
lemma odd_implies_structural (hashF : Header → Nat) :
    ∀ (anchor : Header) (chain : List Header),
      verify_sub_chain_odd hashF anchor chain = true →
      verify_sub_chain hashF anchor chain = true := by
  intro anchor chain
  induction chain generalizing anchor with
  | nil => intro _; rfl
  | cons hd t ih =>
    intro H
    unfold verify_sub_chain_odd at H
    by_cases hp : FORK_HEIGHT < hd.height ∧ hd.state % 2 ≠ 1
    · rw [if_pos hp] at H; cases H
    · rw [if_neg hp] at H
      by_cases hv : is_header_verified hashF anchor hd = true
      · rw [if_pos hv] at H
        show (if is_header_verified hashF anchor hd = true then
            verify_sub_chain hashF hd t else false) = true
        rw [if_pos hv]
        exact ih hd H
      · rw [if_neg hv] at H; cases H

/-- A chain grown solely by successful `child` calls verifies, as long as the
heights stay inside the `u64` range (which forces the height arithmetic not to
wrap; a Rust chain is bounded far below `2 ^ 64` headers). -/
lemma builtFrom_verify (hashF : Header → Nat) (a : Header)
    (chain : List Header) (hb : BuiltFrom hashF a chain) :
    a.height + chain.length < 2 ^ 64 →
    verify_sub_chain hashF a chain = true := by
  induction hb with
  | nil h => intro _; rfl
  | cons hc hrest ih =>
    rename_i h h' e ns rest t
    intro hlen
    simp only [List.length_cons] at hlen
    obtain ⟨hH, hP, hE, hS, -, hW⟩ := child_spec hashF h e ns h' rest hc
    have hH1 : h'.height = h.height + 1 := by
      rw [hH]
      exact Nat.mod_eq_of_lt (by omega)
    have hisv : is_header_verified hashF h h' = true := by
      refine (is_header_verified_iff hashF h h').2 ⟨hH1, hP, ?_, hW⟩
      rw [hS, hE]
    show (if is_header_verified hashF h h' = true then
        verify_sub_chain hashF h' t else false) = true
    rw [if_pos hisv]
    exact ih (by omega)

/-- Claim C1: for every anchor and chain, `verify_sub_chain` returns true if
and only if the four invariants (height step, parent hash, accumulated state,
proof-of-work bound) hold for every consecutive pair starting at
`(anchor, chain[0])`; in particular the empty chain verifies against every
anchor. -/
theorem c1_verify_sub_chain_characterization (hashF : Header → Nat)
    (anchor : Header) (chain : List Header) :
    (verify_sub_chain hashF anchor chain = true ↔
      PairsOk hashF anchor chain) ∧
    verify_sub_chain hashF anchor [] = true :=
  ⟨verify_iff_pairsOk hashF anchor chain, rfl⟩

/-- Claim C2: every header returned by `child` has the parent's height plus
one, the parent's hash in its parent field, the given extrinsic, the
accumulated state, and a hash below `THRESHOLD` (heights and states are `u64`
values, so the additions are assumed not to leave the `u64` range). -/
theorem c2_child_postconditions (hashF : Header → Nat) (h : Header)
    (e : Nat) (ns : List Nat) (h' : Header) (rest : List Nat)
    (hht : h.height + 1 < 2 ^ 64) (hst : h.state + e < 2 ^ 64)
    (H : Header.child hashF h e ns = some (h', rest)) :
    h'.height = h.height + 1 ∧ h'.parent = hashF h ∧ h'.extrinsic = e ∧
    h'.state = h.state + e ∧ hashF h' < THRESHOLD := by
  obtain ⟨hH, hP, hE, hS, -, hW⟩ := child_spec hashF h e ns h' rest H
  refine ⟨?_, hP, hE, ?_, hW⟩
  · rw [hH]; exact Nat.mod_eq_of_lt hht
  · rw [hS]; exact Nat.mod_eq_of_lt hst

theorem c2_witness :
    Header.genesis.height + 1 < 2 ^ 64 ∧ Header.genesis.state + 5 < 2 ^ 64 ∧
    ((⟨0, 1, 5, 5, 0⟩ : Header).height = Header.genesis.height + 1 ∧
     (⟨0, 1, 5, 5, 0⟩ : Header).parent = hashM Header.genesis ∧
     (⟨0, 1, 5, 5, 0⟩ : Header).extrinsic = 5 ∧
     (⟨0, 1, 5, 5, 0⟩ : Header).state = Header.genesis.state + 5 ∧
     hashM ⟨0, 1, 5, 5, 0⟩ < THRESHOLD) :=
  ⟨by decide, by decide,
   c2_child_postconditions hashM Header.genesis 5 [0] ⟨0, 1, 5, 5, 0⟩ []
     (by decide) (by decide) (by decide)⟩

/-- Claim C3: past the fork height the even and odd political rules are
mutually exclusive: no chain containing a header of height above
`FORK_HEIGHT` is accepted by both `verify_sub_chain_even` and
`verify_sub_chain_odd`. -/
theorem c3_political_rules_exclusive (hashF : Header → Nat)
    (anchor : Header) (chain : List Header)
    (hfork : ∃ h, h ∈ chain ∧ FORK_HEIGHT < h.height) :
    ¬ (verify_sub_chain_even hashF anchor chain = true ∧
       verify_sub_chain_odd hashF anchor chain = true) := by
  rintro ⟨he, ho⟩
  obtain ⟨h, hm, hh⟩ := hfork
  have h0 := even_chain_parity hashF anchor chain he h hm hh
  have h1 := odd_chain_parity hashF anchor chain ho h hm hh
  omega

theorem c3_witness :
    (∃ h, h ∈ [(⟨0, 3, 0, 0, 0⟩ : Header)] ∧ FORK_HEIGHT < h.height) ∧
    ¬ (verify_sub_chain_even hashM Header.genesis [⟨0, 3, 0, 0, 0⟩] = true ∧
       verify_sub_chain_odd hashM Header.genesis [⟨0, 3, 0, 0, 0⟩] = true) :=
  ⟨⟨⟨0, 3, 0, 0, 0⟩, by decide, by decide⟩,
   c3_political_rules_exclusive hashM Header.genesis [⟨0, 3, 0, 0, 0⟩]
     ⟨⟨0, 3, 0, 0, 0⟩, by decide, by decide⟩⟩

/-- Claim C4: every chain grown solely by repeated successful `child` calls
from the genesis header passes `verify_sub_chain` against genesis, whatever
the extrinsics and however many headers (any number a `u64`-height chain can
actually have). -/
theorem c4_built_chain_verifies (hashF : Header → Nat)
    (chain : List Header) (hb : BuiltFrom hashF Header.genesis chain)
    (hlen : chain.length < 2 ^ 64) :
    verify_sub_chain hashF Header.genesis chain = true :=
  builtFrom_verify hashF Header.genesis chain hb
    (by simpa [Header.genesis] using hlen)

theorem c4_witness :
    verify_sub_chain hashM Header.genesis
      [⟨0, 1, 5, 5, 0⟩, ⟨85, 2, 6, 11, 0⟩] = true :=
  c4_built_chain_verifies hashM [⟨0, 1, 5, 5, 0⟩, ⟨85, 2, 6, 11, 0⟩]
    (BuiltFrom.cons
      (show Header.child hashM Header.genesis 5 [0] =
        some (⟨0, 1, 5, 5, 0⟩, []) by decide)
      (BuiltFrom.cons
        (show Header.child hashM ⟨0, 1, 5, 5, 0⟩ 6 [0] =
          some (⟨85, 2, 6, 11, 0⟩, []) by decide)
        (BuiltFrom.nil ⟨85, 2, 6, 11, 0⟩)))
    (by decide)

/-- Claim C5: each political verifier only adds the parity requirement on top
of the structural walk, so its acceptance implies structural acceptance. -/
theorem c5_political_refines_structural (hashF : Header → Nat)
    (anchor : Header) (chain : List Header) :
    (verify_sub_chain_even hashF anchor chain = true →
      verify_sub_chain hashF anchor chain = true) ∧
    (verify_sub_chain_odd hashF anchor chain = true →
      verify_sub_chain hashF anchor chain = true) :=
  ⟨even_implies_structural hashF anchor chain,
   odd_implies_structural hashF anchor chain⟩

theorem c5_witness :
    verify_sub_chain_even hashM Header.genesis [⟨0, 1, 5, 5, 0⟩] = true ∧
    verify_sub_chain hashM Header.genesis [⟨0, 1, 5, 5, 0⟩] = true :=
  ⟨by decide,
   (c5_political_refines_structural hashM Header.genesis
     [⟨0, 1, 5, 5, 0⟩]).1 (by decide)⟩

lemma set_pair_prev (anchor : Header) (chain : List Header) (i : Nat)
    (new : Header) :
    (anchor :: chain.set i new).getD i Header.genesis =
      (anchor :: chain).getD i Header.genesis := by
  cases i with
  | zero => rfl
  | succ j =>
    simp only [List.getD_cons_succ]
    exact getD_set_of_ne chain (j + 1) j new Header.genesis (by omega)

/-- Replacing the header at position `i` by one that fails the invariants of
pair `i` makes the whole verification fail. -/
lemma verify_false_of_set_bad (hashF : Header → Nat) (anchor : Header)
    (chain : List Header) (i : Nat) (new : Header) (hi : i < chain.length)
    (hbad : ¬ HeaderOk hashF ((anchor :: chain).getD i Header.genesis) new) :
    verify_sub_chain hashF anchor (chain.set i new) = false := by
  apply verify_false_of_pair_fail hashF anchor (chain.set i new) i
    (by simpa using hi)
  rw [set_pair_prev anchor chain i new,
    getD_set_self chain i new Header.genesis hi]
  exact hbad

/-- Claim C6: in a chain accepted by `verify_sub_chain`, overwriting any
single field (`parent`, `height`, `state`, or `consensus_digest`) of any one
header with a value violating that field's invariant makes `verify_sub_chain`
return `false`. -/
theorem c6_mutation_invalidates (hashF : Header → Nat) (anchor : Header)
    (chain : List Header) (i : Nat) (v : Nat) (hi : i < chain.length)
    (_hvalid : verify_sub_chain hashF anchor chain = true) :
    (v ≠ hashF ((anchor :: chain).getD i Header.genesis) →
      verify_sub_chain hashF anchor
        (chain.set i
          { chain.getD i Header.genesis with parent := v }) = false) ∧
    (v ≠ ((anchor :: chain).getD i Header.genesis).height + 1 →
      verify_sub_chain hashF anchor
        (chain.set i
          { chain.getD i Header.genesis with height := v }) = false) ∧
    (v ≠ (((anchor :: chain).getD i Header.genesis).state +
        (chain.getD i Header.genesis).extrinsic) % 2 ^ 64 →
      verify_sub_chain hashF anchor
        (chain.set i
          { chain.getD i Header.genesis with state := v }) = false) ∧
    (THRESHOLD ≤
        hashF { chain.getD i Header.genesis with consensus_digest := v } →
      verify_sub_chain hashF anchor
        (chain.set i
          { chain.getD i Header.genesis with
              consensus_digest := v }) = false) := by
  refine ⟨?_, ?_, ?_, ?_⟩
  · intro hv
    apply verify_false_of_set_bad hashF anchor chain i _ hi
    rintro ⟨-, hP, -, -⟩
    exact hv hP
  · intro hv
    apply verify_false_of_set_bad hashF anchor chain i _ hi
    rintro ⟨hH, -, -, -⟩
    exact hv hH
  · intro hv
    apply verify_false_of_set_bad hashF anchor chain i _ hi
    rintro ⟨-, -, hS, -⟩
    exact hv hS
  · intro hv
    apply verify_false_of_set_bad hashF anchor chain i _ hi
    rintro ⟨-, -, -, hD⟩
    exact absurd hD (Nat.not_lt.2 hv)

theorem c6_witness :
    verify_sub_chain hashM Header.genesis [⟨0, 1, 5, 5, 0⟩] = true ∧
    verify_sub_chain hashM Header.genesis [⟨99, 1, 5, 5, 0⟩] = false ∧
    verify_sub_chain hashM Header.genesis [⟨0, 7, 5, 5, 0⟩] = false ∧
    verify_sub_chain hashM Header.genesis [⟨0, 1, 5, 9, 0⟩] = false ∧
    verify_sub_chain hashM Header.genesis
      [⟨0, 1, 5, 5, 184467440737095516⟩] = false :=
  ⟨by decide,
   (c6_mutation_invalidates hashM Header.genesis [⟨0, 1, 5, 5, 0⟩] 0 99
     (by decide) (by decide)).1 (by decide),
   (c6_mutation_invalidates hashM Header.genesis [⟨0, 1, 5, 5, 0⟩] 0 7
     (by decide) (by decide)).2.1 (by decide),
   (c6_mutation_invalidates hashM Header.genesis [⟨0, 1, 5, 5, 0⟩] 0 9
     (by decide) (by decide)).2.2.1 (by decide),
   (c6_mutation_invalidates hashM Header.genesis [⟨0, 1, 5, 5, 0⟩] 0
     184467440737095516 (by decide) (by decide)).2.2.2 (by decide)⟩

lemma verify_cons_true (hashF : Header → Nat) {a h : Header}
    {t : List Header} (hv : is_header_verified hashF a h = true) :
    verify_sub_chain hashF a (h :: t) = verify_sub_chain hashF h t := by
  show (if is_header_verified hashF a h = true then
      verify_sub_chain hashF h t else false) = _
  rw [if_pos hv]

lemma even_cons_true (hashF : Header → Nat) {a h : Header}
    {t : List Header} (hv : is_header_verified hashF a h = true)
    (hp : ¬ (FORK_HEIGHT < h.height ∧ h.state % 2 ≠ 0)) :
    verify_sub_chain_even hashF a (h :: t) =
      verify_sub_chain_even hashF h t := by
  show (if FORK_HEIGHT < h.height ∧ h.state % 2 ≠ 0 then false
      else if is_header_verified hashF a h = true then
        verify_sub_chain_even hashF h t else false) = _
  rw [if_neg hp, if_pos hv]

lemma even_cons_false (hashF : Header → Nat) (a h : Header)
    (t : List Header) (hp : FORK_HEIGHT < h.height ∧ h.state % 2 ≠ 0) :
    verify_sub_chain_even hashF a (h :: t) = false := by
  show (if FORK_HEIGHT < h.height ∧ h.state % 2 ≠ 0 then false
      else if is_header_verified hashF a h = true then
        verify_sub_chain_even hashF h t else false) = _
  rw [if_pos hp]

lemma odd_cons_true (hashF : Header → Nat) {a h : Header}
    {t : List Header} (hv : is_header_verified hashF a h = true)
    (hp : ¬ (FORK_HEIGHT < h.height ∧ h.state % 2 ≠ 1)) :
    verify_sub_chain_odd hashF a (h :: t) =
      verify_sub_chain_odd hashF h t := by
  show (if FORK_HEIGHT < h.height ∧ h.state % 2 ≠ 1 then false
      else if is_header_verified hashF a h = true then
        verify_sub_chain_odd hashF h t else false) = _
  rw [if_neg hp, if_pos hv]

lemma odd_cons_false (hashF : Header → Nat) (a h : Header)
    (t : List Header) (hp : FORK_HEIGHT < h.height ∧ h.state % 2 ≠ 1) :
    verify_sub_chain_odd hashF a (h :: t) = false := by
  show (if FORK_HEIGHT < h.height ∧ h.state % 2 ≠ 1 then false
      else if is_header_verified hashF a h = true then
        verify_sub_chain_odd hashF h t else false) = _
  rw [if_pos hp]

/-- Claim C7: whenever `build_contentious_forked_chain` returns three lists,
anchoring at genesis the common part followed by the even branch passes the
structural and even verifiers but fails the odd one, and the common part
followed by the odd branch passes the structural and odd verifiers but fails
the even one. -/
theorem c7_forked_chain_validities (hashF : Header → Nat) (ns : List Nat)
    (p es os : List Header)
    (H : build_contentious_forked_chain hashF ns = some (p, es, os)) :
    verify_sub_chain hashF Header.genesis (p ++ es) = true ∧
    verify_sub_chain_even hashF Header.genesis (p ++ es) = true ∧
    verify_sub_chain_odd hashF Header.genesis (p ++ es) = false ∧
    verify_sub_chain hashF Header.genesis (p ++ os) = true ∧
    verify_sub_chain_odd hashF Header.genesis (p ++ os) = true ∧
    verify_sub_chain_even hashF Header.genesis (p ++ os) = false := by
  unfold build_contentious_forked_chain at H
  split at H
  · cases H
  rename_i b1 ns1 hc1
  split at H
  · cases H
  rename_i b2 ns2 hc2
  split at H
  · cases H
  rename_i ea ns3 hc3
  split at H
  · cases H
  rename_i eb ns4 hc4
  split at H
  · cases H
  rename_i oa ns5 hc5
  split at H
  · cases H
  rename_i ob ns6 hc6
  simp only [Option.some.injEq, Prod.mk.injEq] at H
  obtain ⟨rfl, rfl, rfl⟩ := H
  obtain ⟨h1H, h1P, h1E, h1S, -, h1W⟩ :=
    child_spec hashF Header.genesis 5 ns b1 ns1 hc1
  obtain ⟨h2H, h2P, h2E, h2S, -, h2W⟩ :=
    child_spec hashF b1 6 ns1 b2 ns2 hc2
  obtain ⟨h3H, h3P, h3E, h3S, -, h3W⟩ :=
    child_spec hashF b2 3 ns2 ea ns3 hc3
  obtain ⟨h4H, h4P, h4E, h4S, -, h4W⟩ :=
    child_spec hashF ea 2 ns3 eb ns4 hc4
  obtain ⟨h5H, h5P, h5E, h5S, -, h5W⟩ :=
    child_spec hashF b2 4 ns4 oa ns5 hc5
  obtain ⟨h6H, h6P, h6E, h6S, -, h6W⟩ :=
    child_spec hashF oa 2 ns5 ob ns6 hc6
  have hb1h : b1.height = 1 := by rw [h1H]; decide
  have hb1s : b1.state = 5 := by rw [h1S]; decide
  have hb2h : b2.height = 2 := by rw [h2H, hb1h]; decide
  have hb2s : b2.state = 11 := by rw [h2S, hb1s]; decide
  have heah : ea.height = 3 := by rw [h3H, hb2h]; decide
  have heas : ea.state = 14 := by rw [h3S, hb2s]; decide
  have hebh : eb.height = 4 := by rw [h4H, heah]; decide
  have hebs : eb.state = 16 := by rw [h4S, heas]; decide
  have hoah : oa.height = 3 := by rw [h5H, hb2h]; decide
  have hoas : oa.state = 15 := by rw [h5S, hb2s]; decide
  have hobh : ob.height = 4 := by rw [h6H, hoah]; decide
  have hobs : ob.state = 17 := by rw [h6S, hoas]; decide
  have iv1 : is_header_verified hashF Header.genesis b1 = true :=
    (is_header_verified_iff hashF Header.genesis b1).2
      ⟨by rw [hb1h]; decide, h1P, by rw [hb1s, h1E]; decide, h1W⟩
  have iv2 : is_header_verified hashF b1 b2 = true :=
    (is_header_verified_iff hashF b1 b2).2
      ⟨by rw [hb2h, hb1h], h2P, by rw [hb2s, h2E, hb1s]; decide, h2W⟩
  have iv3 : is_header_verified hashF b2 ea = true :=
    (is_header_verified_iff hashF b2 ea).2
      ⟨by rw [heah, hb2h], h3P, by rw [heas, h3E, hb2s]; decide, h3W⟩
  have iv4 : is_header_verified hashF ea eb = true :=
    (is_header_verified_iff hashF ea eb).2
      ⟨by rw [hebh, heah], h4P, by rw [hebs, h4E, heas]; decide, h4W⟩
  have iv5 : is_header_verified hashF b2 oa = true :=
    (is_header_verified_iff hashF b2 oa).2
      ⟨by rw [hoah, hb2h], h5P, by rw [hoas, h5E, hb2s]; decide, h5W⟩
  have iv6 : is_header_verified hashF oa ob = true :=
    (is_header_verified_iff hashF oa ob).2
      ⟨by rw [hobh, hoah], h6P, by rw [hobs, h6E, hoas]; decide, h6W⟩
  refine ⟨?_, ?_, ?_, ?_, ?_, ?_⟩
  · simp only [List.cons_append, List.nil_append]
    rw [verify_cons_true hashF iv1, verify_cons_true hashF iv2,
      verify_cons_true hashF iv3, verify_cons_true hashF iv4]
    rfl
  · simp only [List.cons_append, List.nil_append]
    rw [even_cons_true hashF iv1 (by rw [hb1h, hb1s]; decide),
      even_cons_true hashF iv2 (by rw [hb2h, hb2s]; decide),
      even_cons_true hashF iv3 (by rw [heah, heas]; decide),
      even_cons_true hashF iv4 (by rw [hebh, hebs]; decide)]
    rfl
  · simp only [List.cons_append, List.nil_append]
    rw [odd_cons_true hashF iv1 (by rw [hb1h, hb1s]; decide),
      odd_cons_true hashF iv2 (by rw [hb2h, hb2s]; decide)]
    exact odd_cons_false hashF b2 ea [eb]
      ⟨by rw [heah]; decide, by rw [heas]; decide⟩
  · simp only [List.cons_append, List.nil_append]
    rw [verify_cons_true hashF iv1, verify_cons_true hashF iv2,
      verify_cons_true hashF iv5, verify_cons_true hashF iv6]
    rfl
  · simp only [List.cons_append, List.nil_append]
    rw [odd_cons_true hashF iv1 (by rw [hb1h, hb1s]; decide),
      odd_cons_true hashF iv2 (by rw [hb2h, hb2s]; decide),
      odd_cons_true hashF iv5 (by rw [hoah, hoas]; decide),
      odd_cons_true hashF iv6 (by rw [hobh, hobs]; decide)]
    rfl
  · simp only [List.cons_append, List.nil_append]
    rw [even_cons_true hashF iv1 (by rw [hb1h, hb1s]; decide),
      even_cons_true hashF iv2 (by rw [hb2h, hb2s]; decide)]
    exact even_cons_false hashF b2 oa [ob]
      ⟨by rw [hoah]; decide, by rw [hoas]; decide⟩

theorem c7_witness :
    verify_sub_chain hashM Header.genesis
      ([⟨0, 1, 5, 5, 0⟩, ⟨85, 2, 6, 11, 0⟩] ++
        [⟨406, 3, 3, 14, 0⟩, ⟨1380, 4, 2, 16, 0⟩]) = true ∧
    verify_sub_chain_even hashM Header.genesis
      ([⟨0, 1, 5, 5, 0⟩, ⟨85, 2, 6, 11, 0⟩] ++
        [⟨406, 3, 3, 14, 0⟩, ⟨1380, 4, 2, 16, 0⟩]) = true ∧
    verify_sub_chain_odd hashM Header.genesis
      ([⟨0, 1, 5, 5, 0⟩, ⟨85, 2, 6, 11, 0⟩] ++
        [⟨406, 3, 3, 14, 0⟩, ⟨1380, 4, 2, 16, 0⟩]) = false ∧
    verify_sub_chain hashM Header.genesis
      ([⟨0, 1, 5, 5, 0⟩, ⟨85, 2, 6, 11, 0⟩] ++
        [⟨406, 3, 4, 15, 0⟩, ⟨1396, 4, 2, 17, 0⟩]) = true ∧
    verify_sub_chain_odd hashM Header.genesis
      ([⟨0, 1, 5, 5, 0⟩, ⟨85, 2, 6, 11, 0⟩] ++
        [⟨406, 3, 4, 15, 0⟩, ⟨1396, 4, 2, 17, 0⟩]) = true ∧
    verify_sub_chain_even hashM Header.genesis
      ([⟨0, 1, 5, 5, 0⟩, ⟨85, 2, 6, 11, 0⟩] ++
        [⟨406, 3, 4, 15, 0⟩, ⟨1396, 4, 2, 17, 0⟩]) = false :=
  c7_forked_chain_validities hashM [0, 0, 0, 0, 0, 0]
    [⟨0, 1, 5, 5, 0⟩, ⟨85, 2, 6, 11, 0⟩]
    [⟨406, 3, 3, 14, 0⟩, ⟨1380, 4, 2, 16, 0⟩]
    [⟨406, 3, 4, 15, 0⟩, ⟨1396, 4, 2, 17, 0⟩]
    (by decide)

/-- Claim C8 (code bug): evaluating `build_contentious_forked_chain` at the
spec-modelled hash shows that the first returned list starts at the height-1
child of genesis, not at the genesis header itself, although the function's
own documentation says the first list is the common part of the two chains
including genesis. -/
theorem c8_common_part_misses_genesis :
    build_contentious_forked_chain hashM [0, 0, 0, 0, 0, 0] =
      some ([⟨0, 1, 5, 5, 0⟩, ⟨85, 2, 6, 11, 0⟩],
        [⟨406, 3, 3, 14, 0⟩, ⟨1380, 4, 2, 16, 0⟩],
        [⟨406, 3, 4, 15, 0⟩, ⟨1396, 4, 2, 17, 0⟩]) ∧
    (⟨0, 1, 5, 5, 0⟩ : Header).height = 1 ∧
    Header.genesis.height = 0 ∧
    (⟨0, 1, 5, 5, 0⟩ : Header) ≠ Header.genesis := by
  decide

/-- Claim C9: every header returned by `child` carries a consensus digest
below `2 ^ 32`, because the miner draws each candidate nonce as a 32-bit
value widened to `u64`. -/
theorem c9_digest_is_32_bit (hashF : Header → Nat) (h : Header) (e : Nat)
    (ns : List Nat) (h' : Header) (rest : List Nat)
    (H : Header.child hashF h e ns = some (h', rest)) :
    h'.consensus_digest < 2 ^ 32 :=
  (child_spec hashF h e ns h' rest H).2.2.2.2.1

theorem c9_witness :
    Header.child hashM Header.genesis 5 [0] =
      some (⟨0, 1, 5, 5, 0⟩, []) ∧
    (⟨0, 1, 5, 5, 0⟩ : Header).consensus_digest < 2 ^ 32 :=
  ⟨by decide,
   c9_digest_is_32_bit hashM Header.genesis 5 [0] ⟨0, 1, 5, 5, 0⟩ []
     (by decide)⟩

/-- Claim C10: the state arithmetic is wrapping `u64` addition: `child`
stores `(h.state + e) % 2 ^ 64`, and the state check of `is_header_verified`
compares against `(prev.state + header.extrinsic) % 2 ^ 64`, so a pair whose
state field equals the wrapped sum passes all checks even when the real sum
leaves the `u64` range — overflow is never detected or rejected. -/
theorem c10_state_wraps_mod_u64 (hashF : Header → Nat) :
    (∀ (h : Header) (e : Nat) (ns : List Nat) (h' : Header)
        (rest : List Nat),
        Header.child hashF h e ns = some (h', rest) →
        h'.state = (h.state + e) % 2 ^ 64) ∧
    (∀ prev h : Header,
        h.height = prev.height + 1 → h.parent = hashF prev →
        h.state = (prev.state + h.extrinsic) % 2 ^ 64 →
        hashF h < THRESHOLD →
        is_header_verified hashF prev h = true) := by
  constructor
  · intro h e ns h' rest H
    exact (child_spec hashF h e ns h' rest H).2.2.2.1
  · intro prev h h1 h2 h3 h4
    exact (is_header_verified_iff hashF prev h).2 ⟨h1, h2, h3, h4⟩

theorem c10_witness :
    2 ^ 64 ≤ (⟨0, 0, 0, 18446744073709551615, 0⟩ : Header).state +
      (⟨18446744073709551607, 1, 2, 1, 0⟩ : Header).extrinsic ∧
    is_header_verified hashM ⟨0, 0, 0, 18446744073709551615, 0⟩
      ⟨18446744073709551607, 1, 2, 1, 0⟩ = true :=
  ⟨by decide,
   (c10_state_wraps_mod_u64 hashM).2 ⟨0, 0, 0, 18446744073709551615, 0⟩
     ⟨18446744073709551607, 1, 2, 1, 0⟩ (by decide) (by decide)
     (by decide) (by decide)⟩

end Blockchain
